import Mathlib

/-!
Verification of the default-initializer shim in src/pkg/dcimgui/ext.cpp.

The shim exposes two flat C entry points, `ImFontConfig_ImFontConfig` and
`ImGuiStyle_ImGuiStyle`.  Each statically asserts that the flat-call
(`cimgui`) declaration of the record and the native (`imgui.h`) declaration
agree in size and alignment, then default-constructs a native temporary and
assigns it through a reinterpret-cast of the caller-supplied pointer,
i.e. performs one full-structure byte copy into the target.

Memory is embedded as a total map from byte addresses to byte values; the
assignment through the cast pointer is embedded as `writeBytes` of the byte
encoding of the native default value at the target address.
-/

/-- Byte-addressed memory: every address holds one byte value. -/
def Memory : Type := Nat → Nat

/-- Store one byte at one address. -/
def upd (m : Memory) (a b : Nat) : Memory :=
  fun x => if x = a then b else m x

/-- Store a list of bytes at consecutive addresses starting at `a`. -/
def writeBytes : Memory → Nat → List Nat → Memory
  | m, _, [] => m
  | m, a, b :: bs => writeBytes (upd m a b) (a + 1) bs

/-- Read `n` consecutive bytes starting at `a`. -/
def readBytes : Memory → Nat → Nat → List Nat
  | _, _, 0 => []
  | m, a, n + 1 => m a :: readBytes m (a + 1) n

/-- Little-endian byte encoding of a machine word of `w` bytes. -/
def bytesOfWord : Nat → Nat → List Nat
  | 0, _ => []
  | w + 1, v => v % 256 :: bytesOfWord w (v / 256)

/-- Little-endian value of a byte list. -/
def wordOfBytes : List Nat → Nat
  | [] => 0
  | b :: bs => b % 256 + 256 * wordOfBytes bs

/-- The `len`-byte field stored at byte offset `off` of a record image. -/
def fieldWord (bs : List Nat) (off len : Nat) : Nat :=
  wordOfBytes ((bs.drop off).take len)

/-- Modelled from the spec: the native `ImFontConfig` record of the wrapped
GUI library (its header is not under src/; the spec documents the fields
controlling font loading: size, oversampling, glyph ranges).  Float fields
are carried as their 32-bit IEEE-754 bit patterns, pointer fields as
addresses with `0` for null. -/
structure ImFontConfig where
  SizePixels : Nat
  OversampleH : Nat
  GlyphRanges : Nat
  deriving DecidableEq

/-- Modelled from the spec: the value produced by the native library's
default construction of `ImFontConfig` — oversampling defaults to `1`,
the glyph-ranges pointer defaults to null, the pixel size to zero. -/
def ImFontConfig_defaults : ImFontConfig :=
  ⟨0, 1, 0⟩

/-- Modelled from the spec: the native `ImGuiStyle` record of visual
styling parameters (alpha, rounding, spacing); float fields are carried
as their 32-bit IEEE-754 bit patterns. -/
structure ImGuiStyle where
  Alpha : Nat
  WindowRounding : Nat
  ItemSpacingX : Nat
  ItemSpacingY : Nat
  deriving DecidableEq

/-- The IEEE-754 single-precision bit pattern of the float value 1.0. -/
def float_one_bits : Nat := 0x3F800000

/-- Modelled from the spec: the value produced by the native library's
default construction of `ImGuiStyle` — the documented default alpha is
the float 1.0 (bit pattern `0x3F800000`). -/
def ImGuiStyle_defaults : ImGuiStyle :=
  ⟨float_one_bits, 0, 0x41000000, 0x40800000⟩

/-- Byte image of an `ImFontConfig` value: two 4-byte fields followed by
an 8-byte pointer field, little-endian. -/
def encodeImFontConfig (c : ImFontConfig) : List Nat :=
  bytesOfWord 4 c.SizePixels ++ bytesOfWord 4 c.OversampleH ++ bytesOfWord 8 c.GlyphRanges

/-- Byte image of an `ImGuiStyle` value: four 4-byte fields, little-endian. -/
def encodeImGuiStyle (s : ImGuiStyle) : List Nat :=
  bytesOfWord 4 s.Alpha ++ bytesOfWord 4 s.WindowRounding ++
    bytesOfWord 4 s.ItemSpacingX ++ bytesOfWord 4 s.ItemSpacingY

/-- Field-wise reading of an `ImFontConfig` record image. -/
def decodeImFontConfig (bs : List Nat) : ImFontConfig :=
  ⟨fieldWord bs 0 4, fieldWord bs 4 4, fieldWord bs 8 8⟩

/-- Field-wise reading of an `ImGuiStyle` record image. -/
def decodeImGuiStyle (bs : List Nat) : ImGuiStyle :=
  ⟨fieldWord bs 0 4, fieldWord bs 4 4, fieldWord bs 8 4, fieldWord bs 12 4⟩

/-- Modelled from the spec: `sizeof(::ImFontConfig)` for the modelled
native record layout. -/
def sizeof_native_ImFontConfig : Nat := 16

/-- Modelled from the spec: `alignof(::ImFontConfig)` (the record holds a
pointer, so it is 8-byte aligned). -/
def alignof_native_ImFontConfig : Nat := 8

/-- Modelled from the spec: `sizeof(cimgui::ImFontConfig)`, the flat-call
representation mirrors the native layout. -/
def sizeof_cimgui_ImFontConfig : Nat := 16

/-- Modelled from the spec: `alignof(cimgui::ImFontConfig)`. -/
def alignof_cimgui_ImFontConfig : Nat := 8

/-- Modelled from the spec: `sizeof(::ImGuiStyle)` for the modelled native
record layout. -/
def sizeof_native_ImGuiStyle : Nat := 16

/-- Modelled from the spec: `alignof(::ImGuiStyle)` (all fields 4-byte
floats). -/
def alignof_native_ImGuiStyle : Nat := 4

/-- Modelled from the spec: `sizeof(cimgui::ImGuiStyle)`. -/
def sizeof_cimgui_ImGuiStyle : Nat := 16

/-- Modelled from the spec: `alignof(cimgui::ImGuiStyle)`. -/
def alignof_cimgui_ImGuiStyle : Nat := 4

/-- The two `static_assert` conditions in `ImFontConfig_ImFontConfig`
(ext.cpp lines 17-18): size and alignment of the flat-call and native
representations agree. -/
def ImFontConfig_static_asserts : Prop :=
  sizeof_cimgui_ImFontConfig = sizeof_native_ImFontConfig ∧
    alignof_cimgui_ImFontConfig = alignof_native_ImFontConfig

/-- The two `static_assert` conditions in `ImGuiStyle_ImGuiStyle`
(ext.cpp lines 25-26). -/
def ImGuiStyle_static_asserts : Prop :=
  sizeof_cimgui_ImGuiStyle = sizeof_native_ImGuiStyle ∧
    alignof_cimgui_ImGuiStyle = alignof_native_ImGuiStyle

/-- Embedding of `ImFontConfig_ImFontConfig` (ext.cpp lines 15-21): a
native `::ImFontConfig` temporary is default-constructed and assigned
through `reinterpret_cast<::ImFontConfig*>(self)`, i.e. its byte image is
written at the target address. -/
def ImFontConfig_ImFontConfig (m : Memory) (self : Nat) : Memory :=
  writeBytes m self (encodeImFontConfig ImFontConfig_defaults)

/-- Embedding of `ImGuiStyle_ImGuiStyle` (ext.cpp lines 23-29). -/
def ImGuiStyle_ImGuiStyle (m : Memory) (self : Nat) : Memory :=
  writeBytes m self (encodeImGuiStyle ImGuiStyle_defaults)

theorem writeBytes_lt (bs : List Nat) : ∀ (m : Memory) (a x : Nat), x < a →
    writeBytes m a bs x = m x := by
  induction bs with
  | nil => intro m a x _; rfl
  | cons b bs ih =>
    intro m a x hx
    show writeBytes (upd m a b) (a + 1) bs x = m x
    rw [ih _ _ _ (by omega)]
    unfold upd
    rw [if_neg (by omega)]

theorem writeBytes_ge (bs : List Nat) : ∀ (m : Memory) (a x : Nat),
    a + bs.length ≤ x → writeBytes m a bs x = m x := by
  induction bs with
  | nil => intro m a x _; rfl
  | cons b bs ih =>
    intro m a x hx
    show writeBytes (upd m a b) (a + 1) bs x = m x
    rw [ih _ _ _ (by simp at hx ⊢; omega)]
    unfold upd
    rw [if_neg (by simp at hx; omega)]

theorem writeBytes_apply (bs : List Nat) : ∀ (m : Memory) (a x : Nat),
    writeBytes m a bs x =
      if a ≤ x ∧ x < a + bs.length then bs.getD (x - a) 0 else m x := by
  induction bs with
  | nil =>
    intro m a x
    rw [if_neg (by simp)]
    rfl
  | cons b bs ih =>
    intro m a x
    show writeBytes (upd m a b) (a + 1) bs x = _
    rw [ih]
    by_cases hxa : x = a
    · subst hxa
      rw [if_neg (by omega), if_pos (by simp)]
      unfold upd
      rw [if_pos rfl, Nat.sub_self]
      rfl
    · by_cases hin : a + 1 ≤ x ∧ x < a + 1 + bs.length
      · rw [if_pos hin, if_pos (by simp; omega)]
        have hx : x - a = (x - (a + 1)) + 1 := by omega
        rw [hx]
        rfl
      · rw [if_neg hin, if_neg (by simp; simp at hin; omega)]
        unfold upd
        rw [if_neg hxa]

theorem readBytes_writeBytes (bs : List Nat) : ∀ (m : Memory) (a : Nat),
    readBytes (writeBytes m a bs) a bs.length = bs := by
  induction bs with
  | nil => intro m a; rfl
  | cons b bs ih =>
    intro m a
    show readBytes (writeBytes (upd m a b) (a + 1) bs) a (bs.length + 1) = b :: bs
    show (writeBytes (upd m a b) (a + 1) bs) a :: _ = b :: bs
    rw [writeBytes_lt bs _ _ _ (by omega), ih]
    unfold upd
    rw [if_pos rfl]

theorem writeBytes_idem (bs : List Nat) (m : Memory) (a : Nat) :
    writeBytes (writeBytes m a bs) a bs = writeBytes m a bs := by
  funext x
  by_cases h : a ≤ x ∧ x < a + bs.length
  · rw [writeBytes_apply bs (writeBytes m a bs) a x, if_pos h,
      writeBytes_apply bs m a x, if_pos h]
  · rw [writeBytes_apply bs (writeBytes m a bs) a x, if_neg h]

theorem readBytes_ImFontConfig (m : Memory) (self : Nat) :
    readBytes (ImFontConfig_ImFontConfig m self) self sizeof_native_ImFontConfig =
      encodeImFontConfig ImFontConfig_defaults := by
  have hlen : (encodeImFontConfig ImFontConfig_defaults).length =
      sizeof_native_ImFontConfig := rfl
  rw [ImFontConfig_ImFontConfig, ← hlen]
  exact readBytes_writeBytes _ m self

theorem readBytes_ImGuiStyle (m : Memory) (self : Nat) :
    readBytes (ImGuiStyle_ImGuiStyle m self) self sizeof_native_ImGuiStyle =
      encodeImGuiStyle ImGuiStyle_defaults := by
  have hlen : (encodeImGuiStyle ImGuiStyle_defaults).length =
      sizeof_native_ImGuiStyle := rfl
  rw [ImGuiStyle_ImGuiStyle, ← hlen]
  exact readBytes_writeBytes _ m self

/-- Memory together with an allocation map: `valid a` says byte address `a`
belongs to an allocated block.  Used to embed the C-level definedness of
the store performed through the cast pointer. -/
structure CMem where
  bytes : Memory
  valid : Nat → Bool

/-- Definedness condition of the C store through a cast pointer: the
pointer is non-null, aligned for the type, and the whole extent of the
type is allocated. -/
def storeOk (cm : CMem) (self len align : Nat) : Bool :=
  self != 0 && self % align == 0 &&
    (List.range len).all fun i => cm.valid (self + i)

/-- C-level embedding of `ImFontConfig_ImFontConfig`: the body performs no
null or validity check, so the call is defined (`some`) exactly when the
language makes the unconditional store defined, and `none` stands for
undefined behavior. -/
def ImFontConfig_ImFontConfig_c (cm : CMem) (self : Nat) : Option CMem :=
  if storeOk cm self sizeof_native_ImFontConfig alignof_native_ImFontConfig then
    some ⟨writeBytes cm.bytes self (encodeImFontConfig ImFontConfig_defaults), cm.valid⟩
  else
    none

/-- C-level embedding of `ImGuiStyle_ImGuiStyle`, as for the font-config
entry point. -/
def ImGuiStyle_ImGuiStyle_c (cm : CMem) (self : Nat) : Option CMem :=
  if storeOk cm self sizeof_native_ImGuiStyle alignof_native_ImGuiStyle then
    some ⟨writeBytes cm.bytes self (encodeImGuiStyle ImGuiStyle_defaults), cm.valid⟩
  else
    none

/-- C1: for both supported record types, the call writes at the target
exactly the byte image of the native default-constructed value — it is
default construction followed by a byte copy — and reading the fields
back from the target yields the native default field values. -/
theorem c1_default_copy_equivalence (m : Memory) (self : Nat) :
    ImFontConfig_ImFontConfig m self =
        writeBytes m self (encodeImFontConfig ImFontConfig_defaults) ∧
      decodeImFontConfig (readBytes (ImFontConfig_ImFontConfig m self) self
          sizeof_native_ImFontConfig) = ImFontConfig_defaults ∧
      ImGuiStyle_ImGuiStyle m self =
        writeBytes m self (encodeImGuiStyle ImGuiStyle_defaults) ∧
      decodeImGuiStyle (readBytes (ImGuiStyle_ImGuiStyle m self) self
          sizeof_native_ImGuiStyle) = ImGuiStyle_defaults := by
  refine ⟨rfl, ?_, rfl, ?_⟩
  · rw [readBytes_ImFontConfig]
    decide
  · rw [readBytes_ImGuiStyle]
    decide

/-- C2: for both supported record types the flat-call and the native
representations agree in size and in alignment, which is exactly what the
`static_assert` pairs of ext.cpp check at build time. -/
theorem c2_layout_asserts_hold :
    ImFontConfig_static_asserts ∧ ImGuiStyle_static_asserts :=
  ⟨⟨rfl, rfl⟩, ⟨rfl, rfl⟩⟩

/-- C3: a call alters no byte outside the `sizeof(T)` extent that starts
at the target address. -/
theorem c3_bounded_write (m : Memory) (self x : Nat) :
    (x < self ∨ self + sizeof_native_ImFontConfig ≤ x →
      ImFontConfig_ImFontConfig m self x = m x) ∧
    (x < self ∨ self + sizeof_native_ImGuiStyle ≤ x →
      ImGuiStyle_ImGuiStyle m self x = m x) := by
  constructor
  · intro h
    show writeBytes m self (encodeImFontConfig ImFontConfig_defaults) x = m x
    rcases h with h | h
    · exact writeBytes_lt _ _ _ _ h
    · apply writeBytes_ge
      have hlen : (encodeImFontConfig ImFontConfig_defaults).length =
          sizeof_native_ImFontConfig := rfl
      rw [hlen]
      exact h
  · intro h
    show writeBytes m self (encodeImGuiStyle ImGuiStyle_defaults) x = m x
    rcases h with h | h
    · exact writeBytes_lt _ _ _ _ h
    · apply writeBytes_ge
      have hlen : (encodeImGuiStyle ImGuiStyle_defaults).length =
          sizeof_native_ImGuiStyle := rfl
      rw [hlen]
      exact h

/-- Witness for C3 at a concrete memory, target and outside address. -/
theorem c3_bounded_write_witness :
    ImFontConfig_ImFontConfig (fun _ => 5) 32 0 = 5 ∧
      ImGuiStyle_ImGuiStyle (fun _ => 5) 32 0 = 5 := by
  have h := c3_bounded_write (fun _ => 5) 32 0
  exact ⟨h.1 (Or.inl (by decide)), h.2 (Or.inl (by decide))⟩

/-- C4: on a zero-filled buffer the font-config call produces a buffer
that is not all zero, whose fields are the native defaults, with
oversampling 1 and a null glyph-ranges pointer. -/
theorem c4_fontconfig_defaults_nontrivial (self : Nat) :
    readBytes (ImFontConfig_ImFontConfig (fun _ => 0) self) self
        sizeof_native_ImFontConfig ≠ List.replicate sizeof_native_ImFontConfig 0 ∧
      decodeImFontConfig (readBytes (ImFontConfig_ImFontConfig (fun _ => 0) self) self
          sizeof_native_ImFontConfig) = ImFontConfig_defaults ∧
      (decodeImFontConfig (readBytes (ImFontConfig_ImFontConfig (fun _ => 0) self) self
          sizeof_native_ImFontConfig)).OversampleH = 1 ∧
      (decodeImFontConfig (readBytes (ImFontConfig_ImFontConfig (fun _ => 0) self) self
          sizeof_native_ImFontConfig)).GlyphRanges = 0 := by
  rw [readBytes_ImFontConfig]
  refine ⟨by decide, by decide, by decide, by decide⟩

/-- C5: on a buffer pre-filled with an arbitrary sentinel byte, the style
call overwrites the sentinel completely with the native default image, and
every field reads back as the native default, in particular alpha is the
bit pattern of the float 1.0. -/
theorem c5_style_sentinel_overwritten (b self : Nat) :
    readBytes (ImGuiStyle_ImGuiStyle (fun _ => b) self) self
        sizeof_native_ImGuiStyle = encodeImGuiStyle ImGuiStyle_defaults ∧
      decodeImGuiStyle (readBytes (ImGuiStyle_ImGuiStyle (fun _ => b) self) self
          sizeof_native_ImGuiStyle) = ImGuiStyle_defaults ∧
      (decodeImGuiStyle (readBytes (ImGuiStyle_ImGuiStyle (fun _ => b) self) self
          sizeof_native_ImGuiStyle)).Alpha = float_one_bits := by
  rw [readBytes_ImGuiStyle]
  refine ⟨rfl, by decide, by decide⟩

/-- C6: calling either entry point twice in succession on the same target
leaves the same final bytes as calling it once. -/
theorem c6_idempotent (m : Memory) (self : Nat) :
    ImFontConfig_ImFontConfig (ImFontConfig_ImFontConfig m self) self =
        ImFontConfig_ImFontConfig m self ∧
      ImGuiStyle_ImGuiStyle (ImGuiStyle_ImGuiStyle m self) self =
        ImGuiStyle_ImGuiStyle m self :=
  ⟨writeBytes_idem _ m self, writeBytes_idem _ m self⟩

/-- C7: both entry points are pure and deterministic — any two calls, on
targets with arbitrary different prior contents and at different
addresses, leave the same bytes in their respective targets. -/
theorem c7_deterministic (m₁ m₂ : Memory) (s₁ s₂ : Nat) :
    readBytes (ImFontConfig_ImFontConfig m₁ s₁) s₁ sizeof_native_ImFontConfig =
        readBytes (ImFontConfig_ImFontConfig m₂ s₂) s₂ sizeof_native_ImFontConfig ∧
      readBytes (ImGuiStyle_ImGuiStyle m₁ s₁) s₁ sizeof_native_ImGuiStyle =
        readBytes (ImGuiStyle_ImGuiStyle m₂ s₂) s₂ sizeof_native_ImGuiStyle := by
  rw [readBytes_ImFontConfig, readBytes_ImFontConfig, readBytes_ImGuiStyle,
    readBytes_ImGuiStyle]
  exact ⟨rfl, rfl⟩

/-- C8: the layout conditions are discharged statically and neither call
has a runtime error path — every executed call deposits the complete
default image at the target, byte for byte, never a partial result. -/
theorem c8_no_runtime_error_path (m : Memory) (self i : Nat) :
    ImFontConfig_static_asserts ∧ ImGuiStyle_static_asserts ∧
      (i < sizeof_native_ImFontConfig →
        ImFontConfig_ImFontConfig m self (self + i) =
          (encodeImFontConfig ImFontConfig_defaults).getD i 0) ∧
      (i < sizeof_native_ImGuiStyle →
        ImGuiStyle_ImGuiStyle m self (self + i) =
          (encodeImGuiStyle ImGuiStyle_defaults).getD i 0) := by
  refine ⟨⟨rfl, rfl⟩, ⟨rfl, rfl⟩, ?_, ?_⟩
  · intro hi
    show writeBytes m self (encodeImFontConfig ImFontConfig_defaults) (self + i) = _
    have hlen : (encodeImFontConfig ImFontConfig_defaults).length =
        sizeof_native_ImFontConfig := rfl
    rw [writeBytes_apply, if_pos ⟨by omega, by rw [hlen]; exact by omega⟩,
      Nat.add_sub_cancel_left]
  · intro hi
    show writeBytes m self (encodeImGuiStyle ImGuiStyle_defaults) (self + i) = _
    have hlen : (encodeImGuiStyle ImGuiStyle_defaults).length =
        sizeof_native_ImGuiStyle := rfl
    rw [writeBytes_apply, if_pos ⟨by omega, by rw [hlen]; exact by omega⟩,
      Nat.add_sub_cancel_left]

/-- Witness for C8 at a concrete memory, target and byte offset. -/
theorem c8_no_runtime_error_path_witness :
    ImFontConfig_ImFontConfig (fun _ => 9) 0 (0 + 4) = 1 ∧
      ImGuiStyle_ImGuiStyle (fun _ => 9) 0 (0 + 3) = 0x3F := by
  constructor
  · rw [(c8_no_runtime_error_path (fun _ => 9) 0 4).2.2.1 (by decide)]
    decide
  · rw [(c8_no_runtime_error_path (fun _ => 9) 0 3).2.2.2 (by decide)]
    decide

/-- C9: each call is a total operation whose effect is a fixed-size write:
the written image has exactly `sizeof(T)` bytes, and the final value of
every address is given by a data-independent case split — inside the
extent it is the default image, outside it is the unchanged prior byte. -/
theorem c9_fixed_extent_total (m : Memory) (self x : Nat) :
    (encodeImFontConfig ImFontConfig_defaults).length = sizeof_native_ImFontConfig ∧
      (encodeImGuiStyle ImGuiStyle_defaults).length = sizeof_native_ImGuiStyle ∧
      ImFontConfig_ImFontConfig m self x =
        (if self ≤ x ∧ x < self + sizeof_native_ImFontConfig then
          (encodeImFontConfig ImFontConfig_defaults).getD (x - self) 0
        else m x) ∧
      ImGuiStyle_ImGuiStyle m self x =
        (if self ≤ x ∧ x < self + sizeof_native_ImGuiStyle then
          (encodeImGuiStyle ImGuiStyle_defaults).getD (x - self) 0
        else m x) := by
  have hf : (encodeImFontConfig ImFontConfig_defaults).length =
      sizeof_native_ImFontConfig := rfl
  have hs : (encodeImGuiStyle ImGuiStyle_defaults).length =
      sizeof_native_ImGuiStyle := rfl
  refine ⟨hf, hs, ?_, ?_⟩
  · show writeBytes m self (encodeImFontConfig ImFontConfig_defaults) x = _
    rw [writeBytes_apply, hf]
  · show writeBytes m self (encodeImGuiStyle ImGuiStyle_defaults) x = _
    rw [writeBytes_apply, hs]

/-- C10: neither entry point checks its pointer: under the unstated
precondition that the target is non-null, aligned and fully allocated the
store is defined and the call succeeds, while a null target is undefined
behavior (`none`), not a diagnosed error. -/
theorem c10_unchecked_deref_precondition (cm : CMem) (self : Nat) :
    (self ≠ 0 → self % alignof_native_ImFontConfig = 0 →
      (∀ i, i < sizeof_native_ImFontConfig → cm.valid (self + i) = true) →
      ImFontConfig_ImFontConfig_c cm self =
        some ⟨ImFontConfig_ImFontConfig cm.bytes self, cm.valid⟩) ∧
    (self ≠ 0 → self % alignof_native_ImGuiStyle = 0 →
      (∀ i, i < sizeof_native_ImGuiStyle → cm.valid (self + i) = true) →
      ImGuiStyle_ImGuiStyle_c cm self =
        some ⟨ImGuiStyle_ImGuiStyle cm.bytes self, cm.valid⟩) ∧
    ImFontConfig_ImFontConfig_c cm 0 = none ∧
    ImGuiStyle_ImGuiStyle_c cm 0 = none := by
  refine ⟨?_, ?_, ?_, ?_⟩
  · intro h1 h2 h3
    have hok : storeOk cm self sizeof_native_ImFontConfig
        alignof_native_ImFontConfig = true := by
      simp only [storeOk, Bool.and_eq_true, bne_iff_ne, beq_iff_eq, List.all_eq_true,
        List.mem_range, decide_eq_true_eq]
      exact ⟨⟨h1, h2⟩, fun i hi => h3 i hi⟩
    unfold ImFontConfig_ImFontConfig_c
    rw [if_pos hok]
    rfl
  · intro h1 h2 h3
    have hok : storeOk cm self sizeof_native_ImGuiStyle
        alignof_native_ImGuiStyle = true := by
      simp only [storeOk, Bool.and_eq_true, bne_iff_ne, beq_iff_eq, List.all_eq_true,
        List.mem_range, decide_eq_true_eq]
      exact ⟨⟨h1, h2⟩, fun i hi => h3 i hi⟩
    unfold ImGuiStyle_ImGuiStyle_c
    rw [if_pos hok]
    rfl
  · unfold ImFontConfig_ImFontConfig_c
    rw [if_neg (by simp [storeOk])]
  · unfold ImGuiStyle_ImGuiStyle_c
    rw [if_neg (by simp [storeOk])]

/-- A concrete allocated memory used to exercise the C-level embedding. -/
def testCMem : CMem :=
  ⟨fun _ => 0, fun _ => true⟩

/-- Witness for C10 at a concrete allocated memory and aligned non-null
target. -/
theorem c10_unchecked_deref_precondition_witness :
    ImFontConfig_ImFontConfig_c testCMem 8 =
        some ⟨ImFontConfig_ImFontConfig testCMem.bytes 8, testCMem.valid⟩ ∧
      ImGuiStyle_ImGuiStyle_c testCMem 8 =
        some ⟨ImGuiStyle_ImGuiStyle testCMem.bytes 8, testCMem.valid⟩ :=
  ⟨(c10_unchecked_deref_precondition testCMem 8).1 (by decide) (by decide)
      (fun _ _ => rfl),
    (c10_unchecked_deref_precondition testCMem 8).2.1 (by decide) (by decide)
      (fun _ _ => rfl)⟩
